import Mathlib

/-!
Shallow embedding of `src/main.py` (wakatime-tracker).

Modelling conventions:
* Python floats (durations, timestamps) are modelled as `ℚ` (exact
  arithmetic; the script only adds, divides and floors them).
* Python strings are Lean `String`s; where character-level scanning is
  needed (`"src/" in s`, `s.split("src/")`) we work on `String.data`
  (the list of characters) with structurally recursive functions that
  implement exactly Python's semantics for the fixed separator "src/".
* `datetime` values driving the day loop are modelled at day
  granularity as `Int` (the loop only compares and adds one day);
  the textual rendering of the date cell is kept abstract as the date
  value itself.
* JSON payloads are modelled as records of `Option`-fields: `none`
  models an absent key, so `entry_data["k"]` is an `Except` lookup that
  fails (Python `KeyError`) on `none`.  JSON scalars are modelled at
  their schema type, so the `str()` / `float()` coercions of
  `from_dict` are identities in the model, while `int()` on the
  `project_root_count` value is rational truncation.
* The two network collaborators are oracles: per-project fetch results
  are `FetchOutcome` values (HTTP error vs. a raw JSON body) supplied
  by an oracle `Int → List FetchOutcome`, and the text-generation
  capability is a function from the prompt's variable parts to a string.
-/

/-- Python `f"{n:02d}"`: decimal rendering zero-padded to width 2
(the sign counts towards the width, as in Python). -/
def pyFmt02d (n : Int) : String :=
  let s := toString n
  if s.length ≥ 2 then s else "0" ++ s

/-- Python `a % b` on numbers (for `b ≠ 0`): `a - b * floor (a / b)`. -/
def pyMod (a b : ℚ) : ℚ := a - b * ⌊a / b⌋

/-- `format_duration` (main.py:112-116).  `seconds // 3600` is float floor
division, and `int` of its integral result is that integer, so
`hours = ⌊seconds / 3600⌋` exactly; similarly for the other two fields
(`seconds % 60` is non-negative, so `int` is again the floor). -/
def format_duration (seconds : ℚ) : String :=
  let hours : Int := ⌊seconds / 3600⌋
  let minutes : Int := ⌊pyMod seconds 3600 / 60⌋
  let secs : Int := ⌊pyMod seconds 60⌋
  pyFmt02d hours ++ ":" ++ pyFmt02d minutes ++ ":" ++ pyFmt02d secs

/-- `DurationEntry` (main.py:37-47). -/
structure DurationEntry where
  entity : String
  type : String
  time : ℚ
  project : String
  project_root_count : Int
  branch : String
  language : String
  dependencies : List String
  duration : ℚ
deriving DecidableEq, Repr

/-- Python `"src/" in s`, scanning the characters of `s` for the fixed
four-character needle. -/
def containsSrc : List Char → Bool
  | 's' :: 'r' :: 'c' :: '/' :: _ => true
  | _ :: rest => containsSrc rest
  | [] => false

/-- Python `s.split("src/")` on the characters of `s` (greedy
left-to-right matching of the fixed separator); `cur` is the reversed
current chunk. -/
def splitSrcAux (cur : List Char) : List Char → List (List Char)
  | 's' :: 'r' :: 'c' :: '/' :: rest => cur.reverse :: splitSrcAux [] rest
  | c :: rest => splitSrcAux (c :: cur) rest
  | [] => [cur.reverse]

def splitSrc (s : List Char) : List (List Char) := splitSrcAux [] s

/-- `entry.entity.split("src/")[1]` (main.py:135): the chunk between the
first and second occurrence of `"src/"` (or everything after the first
occurrence when it occurs only once).  Total here via `getD`; the source
only evaluates it under the `"src/" in entity` guard, where index 1
exists. -/
def srcSegmentName (s : String) : String := ⟨(splitSrc s.data).getD 1 []⟩

/-- Modelled from the spec: the name the spec claims for a kept entry,
namely the text to the right of the FIRST `"src/"` occurrence
(everything after it, later occurrences included). -/
def specSrcName : List Char → List Char
  | 's' :: 'r' :: 'c' :: '/' :: rest => rest
  | _ :: rest => specSrcName rest
  | [] => []

/-- The body of the `for entry in entries` loop of
`generate_work_description` (main.py:125-137): `none` when a `continue`
fires, otherwise the `(name, formatted duration)` pair added to the set. -/
def entityPair (e : DurationEntry) : Option (String × String) :=
  if containsSrc e.entity.data = false then none
  else if e.duration < 60 then none
  else some (srcSegmentName e.entity, format_duration e.duration)

/-- `entities_and_duration` (main.py:125-137): the Python `set` built by
the loop, modelled as an insertion-ordered duplicate-free list (set
membership is what the claims quantify over; Python's iteration order is
unspecified). -/
def entities_and_duration (entries : List DurationEntry) : List (String × String) :=
  entries.foldl
    (fun acc e =>
      match entityPair e with
      | none => acc
      | some p => if p ∈ acc then acc else acc ++ [p]) []

/-- The variable parts of the prompt built by `generate_work_description`
(main.py:139-159): the project label interpolated at the top and the
comma-joined file list; the surrounding fixed template text is elided. -/
structure Prompt where
  project : String
  fileList : String
deriving DecidableEq, Repr

/-- `", ".join(f"{entity} ({duration})" ...)` (main.py:150). -/
def buildFileList (entries : List DurationEntry) : String :=
  String.intercalate ", "
    ((entities_and_duration entries).map fun p => p.1 ++ " (" ++ p.2 ++ ")")

def buildPrompt (project : String) (entries : List DurationEntry) : Prompt :=
  ⟨project, buildFileList entries⟩

/-- One element of the payload's `data[]` list, as raw JSON: `none`
models an absent key (Python `KeyError` on subscript access).  Scalars
are modelled at their schema types (see the header comment), so the
`str()` / `float()` / `list()` coercions of `from_dict` are identities
here; `project_root_count` is kept as a raw number so that Python
truthiness (`if entry_data["project_root_count"]`) and `int()`
truncation are modelled. -/
structure RawEntry where
  entity : Option String
  type : Option String
  time : Option ℚ
  project : Option String
  project_root_count : Option ℚ
  branch : Option String
  language : Option String
  dependencies : Option (List String)
  duration : Option ℚ
deriving DecidableEq, Repr

/-- The raw JSON body of a durations response.  `start` / `end` are kept
as already-parsed timestamps (the `fromisoformat` / `"Z" → "+00:00"`
detail is outside every claim); `color` is read with `.get`, hence no
failure there. -/
structure RawPayload where
  data : List RawEntry
  start : Option ℚ
  stop : Option ℚ
  timezone : Option String
  color : Option String
  branches : Option (List String)
  available_branches : Option (List String)
deriving DecidableEq, Repr

structure DurationsResponse where
  data : List DurationEntry
  start : ℚ
  stop : ℚ
  timezone : String
  branches : List String
  available_branches : List String
  color : Option String
deriving DecidableEq, Repr

/-- `sum(float(entry.duration) for entry in self.data)` (main.py:60-62). -/
def DurationsResponse.total_duration (r : DurationsResponse) : ℚ :=
  (r.data.map fun e => e.duration).sum

/-- Python `int()` on a number: truncation toward zero. -/
def pyInt (q : ℚ) : Int := if q < 0 then -⌊-q⌋ else ⌊q⌋

/-- `entry_data["k"]`: `KeyError` (carrying the key name) when absent. -/
def getKey {α : Type} (v : Option α) (key : String) : Except String α :=
  match v with
  | some a => .ok a
  | none => .error key

/-- The loop body of `DurationsResponse.from_dict` (main.py:67-83)
building one `DurationEntry`, with each required key read by subscript
(failing on absence).  `project_root_count` is
`int(x if x else 0)` on the present value `x`: `0` when `x` is falsy
(the number `0`), otherwise `int(x)`. -/
def decodeEntry (d : RawEntry) : Except String DurationEntry := do
  let entity ← getKey d.entity "entity"
  let type ← getKey d.type "type"
  let time ← getKey d.time "time"
  let project ← getKey d.project "project"
  let prc ← getKey d.project_root_count "project_root_count"
  let branch ← getKey d.branch "branch"
  let language ← getKey d.language "language"
  let dependencies ← getKey d.dependencies "dependencies"
  let duration ← getKey d.duration "duration"
  pure
    { entity := entity
      type := type
      time := time
      project := project
      project_root_count := if prc ≠ 0 then pyInt prc else 0
      branch := branch
      language := language
      dependencies := dependencies
      duration := duration }

/-- `DurationsResponse.from_dict` (main.py:64-93): decode every `data[]`
element in order (the loop), then read the top-level keys. -/
def DurationsResponse.from_dict (p : RawPayload) : Except String DurationsResponse := do
  let entries ← p.data.mapM decodeEntry
  let start ← getKey p.start "start"
  let stop ← getKey p.stop "end"
  let timezone ← getKey p.timezone "timezone"
  let branches ← getKey p.branches "branches"
  let available_branches ← getKey p.available_branches "available_branches"
  pure
    { data := entries
      start := start
      stop := stop
      timezone := timezone
      branches := branches
      available_branches := available_branches
      color := p.color }

/-- What one `wakatime_client.get_durations` call produced, as seen by
the per-project loop: `httpError` models `raise_for_status` raising
`requests.RequestException` (the only exception the loop catches);
`body` carries the JSON of a successful response, still to be decoded
by `from_dict` (whose failure is NOT a `RequestException`). -/
inductive FetchOutcome
  | httpError
  | body (p : RawPayload)
deriving DecidableEq, Repr

/-- The `for project in projects` loop of `analyze_and_write_csv`
(main.py:209-220) for one date: accumulate the running total and the
combined entry list over the successful fetches, skipping (only)
HTTP-layer failures; a decode failure escapes as `.error`. -/
def aggregateDay : List FetchOutcome → Except String (ℚ × List DurationEntry)
  | [] => .ok (0, [])
  | .httpError :: rest => aggregateDay rest
  | .body p :: rest => do
      let r ← DurationsResponse.from_dict p
      let (t, es) ← aggregateDay rest
      pure (r.total_duration + t, r.data ++ es)

/-- One emitted report row: the date value (its textual
`"YYYY-MM-DD (weekday)"` rendering is elided), the `Horas` cell, and the
`Descrição` cell. -/
structure Row where
  date : Int
  horas : String
  descricao : String
deriving DecidableEq, Repr

/-- What processing one date produced: the text-generation calls made
(by their prompts) and the rows written. -/
structure DayOutcome where
  calls : List Prompt
  rows : List Row
deriving DecidableEq, Repr

/-- The per-date body of the `while` loop (main.py:205-240): aggregate
the projects, and iff the combined entry list is non-empty, make one
generation call and write one row. -/
def processDay (gen : Prompt → String) (label : String) (date : Int)
    (outcomes : List FetchOutcome) : Except String DayOutcome := do
  let (total, entries) ← aggregateDay outcomes
  if entries.isEmpty then
    pure ⟨[], []⟩
  else
    let p := buildPrompt label entries
    pure ⟨[p], [⟨date, format_duration total, gen p⟩]⟩

/-- The dates visited by the `while current_date <= end_date` loop
(main.py:203-243), in visit order. -/
def visitedDates (start stop : Int) : List Int :=
  if start ≤ stop then start :: visitedDates (start + 1) stop else []
termination_by (stop + 1 - start).toNat
decreasing_by omega

/-- `analyze_and_write_csv`'s date loop (main.py:203-243), accumulating
the generation calls made and the rows written in visit order; `oracle`
supplies, per date, one fetch outcome per configured project (in
project order).  An uncaught decode failure aborts the whole run. -/
def runReport (gen : Prompt → String) (label : String)
    (oracle : Int → List FetchOutcome) (start stop : Int) :
    Except String DayOutcome :=
  if start ≤ stop then do
    let d ← processDay gen label start (oracle start)
    let rest ← runReport gen label oracle (start + 1) stop
    pure ⟨d.calls ++ rest.calls, d.rows ++ rest.rows⟩
  else
    .ok ⟨[], []⟩
termination_by (stop + 1 - start).toNat
decreasing_by omega

/-- The header row written before the loop (main.py:191). -/
def csvHeader : List String := ["Data", "Horas", "Descrição"]

/-- The full table written to `trabalho.csv`: the header row followed by
the data rows. -/
def csvTable (rows : List Row) : List (List String) :=
  csvHeader :: rows.map fun r => [toString r.date, r.horas, r.descricao]

/-- Python truthiness of `os.getenv(k)`: `None` (absent) and the empty
string are falsy. -/
def envTruthy : Option String → Bool
  | none => false
  | some s => !s.isEmpty

/-- `is_environment_valid` (main.py:248-254). -/
def is_environment_valid (env : String → Option String) : Bool :=
  envTruthy (env "OPENAI_API_KEY") && envTruthy (env "WAKATIME_TOKEN")

/-- `main` (main.py:257-286): when the environment check fails, log and
return — no exception, no output file (`trabalho.csv` is only opened
inside `analyze_and_write_csv`).  Otherwise run the analysis; `none`
models "no output file was produced". -/
def mainModel (env : String → Option String) (gen : Prompt → String)
    (label : String) (oracle : Int → List FetchOutcome)
    (start stop : Int) : Except String (Option (List (List String))) :=
  if is_environment_valid env then
    (runReport gen label oracle start stop).map fun o => some (csvTable o.rows)
  else
    .ok none

/-- A concrete entry fixture (only `entity` and `duration` matter to the
description generator). -/
def sampleEntry (entity : String) (dur : ℚ) : DurationEntry :=
  ⟨entity, "file", 0, "sipe-api", 0, "main", "Python", [], dur⟩

/-- A raw `data[]` element with every key present except (possibly)
`project_root_count`. -/
def sampleRaw (prc : Option ℚ) : RawEntry :=
  ⟨some "src/app.py", some "file", some 17, some "sipe-api", prc,
   some "main", some "Python", some [], some 90⟩

def rEntryExample : DurationEntry :=
  ⟨"src/app.py", "file", 17, "sipe-api", 2, "main", "Python", [], 90⟩

def samplePayload : RawPayload :=
  ⟨[sampleRaw (some 2)], some 100, some 200, some "UTC", none,
   some ["main"], some ["main"]⟩

def rExample : DurationsResponse :=
  ⟨[rEntryExample], 100, 200, "UTC", ["main"], ["main"], none⟩

/-- The raw bodies of the successful HTTP responses, in order. -/
def fetchedBodies (outcomes : List FetchOutcome) : List RawPayload :=
  outcomes.filterMap fun o =>
    match o with
    | .httpError => none
    | .body p => some p

/-- A raw entry carrying a NEGATIVE duration; every key is present. -/
def rawNegDuration : RawEntry :=
  ⟨some "src/app.py", some "file", some 17, some "sipe-api", some 2,
   some "main", some "Python", some [], some (-1)⟩

def negPayload : RawPayload :=
  ⟨[rawNegDuration], some 100, some 200, some "UTC", none,
   some ["main"], some ["main"]⟩

def negEntry : DurationEntry :=
  ⟨"src/app.py", "file", 17, "sipe-api", 2, "main", "Python", [], -1⟩

/-- A successful response whose only entry has no `"src/"` in its
entity: the combined day list is non-empty, but the prompt filter keeps
nothing. -/
def docsRaw : RawEntry :=
  ⟨some "docs/readme.md", some "file", some 17, some "sipe-api", some 2,
   some "main", some "Markdown", some [], some 120⟩

def noSrcPayload : RawPayload :=
  ⟨[docsRaw], some 100, some 200, some "UTC", none, some ["main"], some ["main"]⟩

def noSrcOutcome : FetchOutcome := .body noSrcPayload

def docsEntry : DurationEntry :=
  ⟨"docs/readme.md", "file", 17, "sipe-api", 2, "main", "Markdown", [], 120⟩

/-- A payload whose only `data[]` element is missing the required
`duration` key. -/
def rawNoDuration : RawEntry :=
  ⟨some "src/app.py", some "file", some 17, some "sipe-api", some 2,
   some "main", some "Python", some [], none⟩

def badPayload : RawPayload :=
  ⟨[rawNoDuration], some 100, some 200, some "UTC", none,
   some ["main"], some ["main"]⟩

/-- Whether a date's aggregation collected at least one entry (the
truthiness test `if daily_entries[current_date]:`, main.py:222). -/
def dayHasEntries (outcomes : List FetchOutcome) : Bool :=
  match aggregateDay outcomes with
  | .ok (_, es) => !es.isEmpty
  | .error _ => false

/-! ## Helper lemmas -/

theorem floor_div_natCast (q : ℚ) (m : ℕ) (hm : 0 < m) :
    ⌊q / ((m : ℕ) : ℚ)⌋ = ⌊q⌋ / ((m : ℕ) : ℤ) := by
  have hm' : (0 : ℚ) < (m : ℚ) := by exact_mod_cast hm
  have hmz : ((m : ℕ) : ℤ) ≠ 0 := by exact_mod_cast hm.ne'
  set z := ⌊q⌋ with hz
  have h1 : ((m : ℕ) : ℤ) * (z / ((m : ℕ) : ℤ)) ≤ z := by
    have hnn := Int.emod_nonneg z hmz
    have heq := Int.ediv_add_emod z ((m : ℕ) : ℤ)
    omega
  have h2 : z < ((m : ℕ) : ℤ) * (z / ((m : ℕ) : ℤ)) + ((m : ℕ) : ℤ) := by
    have hlt := Int.emod_lt_of_pos z (by exact_mod_cast hm : (0 : ℤ) < ((m : ℕ) : ℤ))
    have heq := Int.ediv_add_emod z ((m : ℕ) : ℤ)
    omega
  rw [Int.floor_eq_iff]
  constructor
  · rw [le_div_iff₀ hm']
    calc ((z / ((m : ℕ) : ℤ) : ℤ) : ℚ) * ((m : ℕ) : ℚ)
        = ((((m : ℕ) : ℤ) * (z / ((m : ℕ) : ℤ)) : ℤ) : ℚ) := by push_cast; ring
      _ ≤ ((z : ℤ) : ℚ) := by exact_mod_cast h1
      _ ≤ q := Int.floor_le q
  · rw [div_lt_iff₀ hm']
    calc q < ((z : ℤ) : ℚ) + 1 := Int.lt_floor_add_one q
      _ ≤ ((((m : ℕ) : ℤ) * (z / ((m : ℕ) : ℤ)) + ((m : ℕ) : ℤ) : ℤ) : ℚ) := by
          exact_mod_cast Int.add_one_le_iff.mpr h2
      _ = (((z / ((m : ℕ) : ℤ) : ℤ) : ℚ) + 1) * ((m : ℕ) : ℚ) := by push_cast; ring

theorem floor_div_3600 (q : ℚ) : ⌊q / 3600⌋ = ⌊q⌋ / 3600 := by
  have h := floor_div_natCast q 3600 (by norm_num)
  norm_num at h
  exact h

theorem floor_div_60 (q : ℚ) : ⌊q / 60⌋ = ⌊q⌋ / 60 := by
  have h := floor_div_natCast q 60 (by norm_num)
  norm_num at h
  exact h

theorem floor_pyMod_3600 (q : ℚ) : ⌊pyMod q 3600⌋ = ⌊q⌋ % 3600 := by
  unfold pyMod
  rw [floor_div_3600, show (3600 : ℚ) * ((⌊q⌋ / 3600 : ℤ) : ℚ)
      = ((3600 * (⌊q⌋ / 3600) : ℤ) : ℚ) by push_cast; ring,
    Int.floor_sub_int]
  omega

theorem floor_pyMod_60 (q : ℚ) : ⌊pyMod q 60⌋ = ⌊q⌋ % 60 := by
  unfold pyMod
  rw [floor_div_60, show (60 : ℚ) * ((⌊q⌋ / 60 : ℤ) : ℚ)
      = ((60 * (⌊q⌋ / 60) : ℤ) : ℚ) by push_cast; ring,
    Int.floor_sub_int]
  omega

theorem format_duration_eq_fields (q : ℚ) :
    format_duration q =
      pyFmt02d (⌊q⌋ / 3600) ++ ":" ++ pyFmt02d (⌊q⌋ % 3600 / 60) ++ ":" ++
        pyFmt02d (⌊q⌋ % 60) := by
  unfold format_duration
  rw [floor_div_3600, floor_div_60, floor_pyMod_3600, floor_pyMod_60]

theorem mem_foldl_entities (l : List DurationEntry) :
    ∀ (acc : List (String × String)) (p : String × String),
      p ∈ l.foldl
        (fun acc e =>
          match entityPair e with
          | none => acc
          | some q => if q ∈ acc then acc else acc ++ [q]) acc ↔
      p ∈ acc ∨ ∃ e ∈ l, entityPair e = some p := by
  induction l with
  | nil => simp
  | cons e l ih =>
    intro acc p
    simp only [List.foldl_cons, ih, List.mem_cons]
    cases hE : entityPair e with
    | none =>
      constructor
      · rintro (h | ⟨x, hx, hxp⟩)
        · exact Or.inl h
        · exact Or.inr ⟨x, Or.inr hx, hxp⟩
      · rintro (h | ⟨x, he | hl, hxp⟩)
        · exact Or.inl h
        · subst he; rw [hE] at hxp; cases hxp
        · exact Or.inr ⟨x, hl, hxp⟩
    | some q =>
      by_cases hq : q ∈ acc
      · simp only [if_pos hq]
        constructor
        · rintro (h | ⟨x, hx, hxp⟩)
          · exact Or.inl h
          · exact Or.inr ⟨x, Or.inr hx, hxp⟩
        · rintro (h | ⟨x, he | hl, hxp⟩)
          · exact Or.inl h
          · subst he; rw [hE] at hxp; cases hxp; exact Or.inl hq
          · exact Or.inr ⟨x, hl, hxp⟩
      · simp only [if_neg hq]
        constructor
        · rintro (h | ⟨x, hx, hxp⟩)
          · rcases List.mem_append.mp h with h | h
            · exact Or.inl h
            · simp only [List.mem_singleton] at h
              exact Or.inr ⟨e, Or.inl rfl, h ▸ hE⟩
          · exact Or.inr ⟨x, Or.inr hx, hxp⟩
        · rintro (h | ⟨x, he | hl, hxp⟩)
          · exact Or.inl (List.mem_append.mpr (Or.inl h))
          · subst he; rw [hE] at hxp; cases hxp
            exact Or.inl (List.mem_append.mpr (Or.inr (List.mem_singleton.mpr rfl)))
          · exact Or.inr ⟨x, hl, hxp⟩

theorem entityPair_eq_some (e : DurationEntry) (p : String × String) :
    entityPair e = some p ↔
      containsSrc e.entity.data = true ∧ 60 ≤ e.duration ∧
        p = (srcSegmentName e.entity, format_duration e.duration) := by
  unfold entityPair
  by_cases hc : containsSrc e.entity.data
  · by_cases hd : e.duration < 60
    · simp [hc, hd, not_le.mpr hd]
    · simp [hc, hd, not_lt.mp hd, eq_comm]
  · simp [Bool.not_eq_true _ ▸ hc]

theorem format_duration_120 : format_duration 120 = "00:02:00" := by
  rw [format_duration_eq_fields]
  norm_num
  decide

theorem entityPair_foo :
    entityPair (sampleEntry "a/b/src/foo.py" 120) = some ("foo.py", "00:02:00") := by
  unfold entityPair sampleEntry
  rw [if_neg (by decide), if_neg (by norm_num)]
  rw [format_duration_120]
  decide

theorem entityPair_double :
    entityPair (sampleEntry "x/src/a/src/b.py" 120) = some ("a/", "00:02:00") := by
  unfold entityPair sampleEntry
  rw [if_neg (by decide), if_neg (by norm_num)]
  rw [format_duration_120]
  decide

/-- C1 (amended): an entry contributes a pair to the prompt's file list
iff its entity contains `"src/"` and its duration is at least 60
seconds; the contributed name is `entity.split("src/")[1]` — the text
between the first and the second occurrence of `"src/"` (which is the
whole remainder only when `"src/"` occurs once) — and the duration is
rendered by `format_duration`.  The spec's worked examples hold:
`"a/b/src/foo.py"` at 120s contributes `("foo.py", "00:02:00")`, a 30s
entry contributes nothing, and `"docs/readme.md"` contributes nothing. -/
theorem c1_prompt_fileList_characterization :
    (∀ (entries : List DurationEntry) (p : String × String),
      p ∈ entities_and_duration entries ↔
        ∃ e ∈ entries, containsSrc e.entity.data = true ∧ 60 ≤ e.duration ∧
          p = (srcSegmentName e.entity, format_duration e.duration)) ∧
    entities_and_duration [sampleEntry "a/b/src/foo.py" 120] = [("foo.py", "00:02:00")] ∧
    entities_and_duration [sampleEntry "a/b/src/foo.py" 30] = [] ∧
    entities_and_duration [sampleEntry "docs/readme.md" 120] = [] := by
  refine ⟨fun entries p => ?_, ?_, ?_, ?_⟩
  · unfold entities_and_duration
    rw [mem_foldl_entities]
    simp only [List.not_mem_nil, false_or, entityPair_eq_some]
  · unfold entities_and_duration
    simp only [List.foldl_cons, List.foldl_nil, entityPair_foo]
    simp
  · unfold entities_and_duration
    have h : entityPair (sampleEntry "a/b/src/foo.py" 30) = none := by
      unfold entityPair sampleEntry
      rw [if_neg (by decide), if_pos (by norm_num)]
    simp only [List.foldl_cons, List.foldl_nil, h]
  · unfold entities_and_duration
    have h : entityPair (sampleEntry "docs/readme.md" 120) = none := by
      unfold entityPair sampleEntry
      rw [if_pos (by decide)]
    simp only [List.foldl_cons, List.foldl_nil, h]

/-- C1 counterexample to the claim as stated: for the entity
`"x/src/a/src/b.py"` (two `"src/"` occurrences) at 120 seconds, the text
to the right of the FIRST `"src/"` occurrence is `"a/src/b.py"`, but the
pair the code contributes is `("a/", "00:02:00")` — `split("src/")[1]`
stops at the second occurrence — and no pair named `"a/src/b.py"` is
contributed. -/
theorem c1_counterexample :
    String.mk (specSrcName ("x/src/a/src/b.py").data) = "a/src/b.py" ∧
    entities_and_duration [sampleEntry "x/src/a/src/b.py" 120] = [("a/", "00:02:00")] ∧
    ("a/src/b.py", "00:02:00") ∉
      entities_and_duration [sampleEntry "x/src/a/src/b.py" 120] := by
  refine ⟨by decide, ?_, ?_⟩
  · unfold entities_and_duration
    simp only [List.foldl_cons, List.foldl_nil, entityPair_double]
    simp
  · unfold entities_and_duration
    simp only [List.foldl_cons, List.foldl_nil, entityPair_double]
    simp

/-- C3: for every non-negative duration `d`, `format_duration d` is
`"HH:MM:SS"` with integer fields `(h, m, s)` (each rendered zero-padded
to two digits) satisfying `h*3600 + m*60 + s = ⌊d⌋`, `0 ≤ m < 60` and
`0 ≤ s < 60`; and the three concrete evaluations of the spec hold. -/
theorem c3_format_duration_correct (d : ℚ) (hd : 0 ≤ d) :
    (∃ h m s : ℤ,
      format_duration d =
        pyFmt02d h ++ ":" ++ pyFmt02d m ++ ":" ++ pyFmt02d s ∧
      h * 3600 + m * 60 + s = ⌊d⌋ ∧
      0 ≤ h ∧ 0 ≤ m ∧ m < 60 ∧ 0 ≤ s ∧ s < 60) ∧
    format_duration 0 = "00:00:00" ∧
    format_duration 3661 = "01:01:01" ∧
    format_duration 59 = "00:00:59" := by
  have hz : 0 ≤ ⌊d⌋ := Int.floor_nonneg.mpr hd
  refine ⟨⟨⌊d⌋ / 3600, ⌊d⌋ % 3600 / 60, ⌊d⌋ % 60,
    format_duration_eq_fields d, by omega, by omega, by omega, by omega,
    by omega, by omega⟩, ?_, ?_, ?_⟩
  · rw [format_duration_eq_fields]
    norm_num
    decide
  · rw [format_duration_eq_fields]
    norm_num
    decide
  · rw [format_duration_eq_fields]
    norm_num
    decide

/-- Witness for C3 at the fractional input `d = 7/2`. -/
theorem c3_format_duration_correct_witness :
    (∃ h m s : ℤ,
      format_duration (7/2 : ℚ) =
        pyFmt02d h ++ ":" ++ pyFmt02d m ++ ":" ++ pyFmt02d s ∧
      h * 3600 + m * 60 + s = ⌊(7/2 : ℚ)⌋ ∧
      0 ≤ h ∧ 0 ≤ m ∧ m < 60 ∧ 0 ≤ s ∧ s < 60) ∧
    format_duration 0 = "00:00:00" ∧
    format_duration 3661 = "01:01:01" ∧
    format_duration 59 = "00:00:59" :=
  c3_format_duration_correct (7/2) (by norm_num)

theorem getKey_bind_ok {α β : Type} (v : Option α) (k : String)
    (f : α → Except String β) (b : β) :
    (getKey v k >>= f) = .ok b ↔ ∃ a, v = some a ∧ f a = .ok b := by
  cases v <;> simp [getKey, Bind.bind, Except.bind]

theorem getKey_bind_error {α β : Type} (v : Option α) (k : String)
    (f : α → Except String β) (msg : String) :
    (getKey v k >>= f) = .error msg ↔
      (v = none ∧ k = msg) ∨ ∃ a, v = some a ∧ f a = .error msg := by
  cases v <;> simp [getKey, Bind.bind, Except.bind]

/-- Field-wise description of a successful `decodeEntry`. -/
theorem decodeEntry_ok_iff (d : RawEntry) (e : DurationEntry) :
    decodeEntry d = .ok e ↔
      d.entity = some e.entity ∧ d.type = some e.type ∧ d.time = some e.time ∧
      d.project = some e.project ∧
      (∃ v, d.project_root_count = some v ∧
        e.project_root_count = if v ≠ 0 then pyInt v else 0) ∧
      d.branch = some e.branch ∧ d.language = some e.language ∧
      d.dependencies = some e.dependencies ∧ d.duration = some e.duration := by
  obtain ⟨a1, a2, a3, a4, a5, a6, a7, a8, a9⟩ := d
  simp only [decodeEntry, getKey_bind_ok]
  constructor
  · rintro ⟨v1, h1, v2, h2, v3, h3, v4, h4, v5, h5, v6, h6, v7, h7, v8, h8, v9, h9, hp⟩
    simp only [pure, Except.pure, Except.ok.injEq] at hp
    subst hp
    exact ⟨h1, h2, h3, h4, ⟨v5, h5, rfl⟩, h6, h7, h8, h9⟩
  · rintro ⟨h1, h2, h3, h4, ⟨v5, h5, hv5⟩, h6, h7, h8, h9⟩
    refine ⟨e.entity, h1, e.type, h2, e.time, h3, e.project, h4, v5, h5,
      e.branch, h6, e.language, h7, e.dependencies, h8, e.duration, h9, ?_⟩
    simp only [pure, Except.pure, Except.ok.injEq]
    cases e
    simp_all

theorem mapM_decodeEntry_ok (l : List RawEntry) (l' : List DurationEntry)
    (h : l.mapM decodeEntry = .ok l') :
    l'.length = l.length ∧
    ∀ i (hi : i < l.length) (hi' : i < l'.length),
      decodeEntry (l.get ⟨i, hi⟩) = .ok (l'.get ⟨i, hi'⟩) := by
  rw [← List.mapM'_eq_mapM] at h
  induction l generalizing l' with
  | nil =>
    simp only [List.mapM'_nil, pure, Except.pure, Except.ok.injEq] at h
    subst h
    exact ⟨rfl, fun i hi _ => absurd hi (Nat.not_lt_zero i)⟩
  | cons a l ih =>
    simp only [List.mapM'_cons] at h
    cases ha : decodeEntry a with
    | error msg => rw [ha] at h; simp [Bind.bind, Except.bind] at h
    | ok b =>
      rw [ha] at h
      simp only [Bind.bind, Except.bind] at h
      cases hl : l.mapM' decodeEntry with
      | error msg => rw [hl] at h; simp at h
      | ok bs =>
        rw [hl] at h
        simp only [pure, Except.pure, Except.ok.injEq] at h
        subst h
        obtain ⟨hlen, hidx⟩ := ih bs hl
        refine ⟨by simp [hlen], fun i hi hi' => ?_⟩
        cases i with
        | zero => simpa using ha
        | succ j =>
          have hj : j < l.length := by simpa using hi
          have hj' : j < bs.length := by simpa using hi'
          simpa using hidx j hj hj'

theorem exceptBind_ok {ε α β : Type} (x : Except ε α) (f : α → Except ε β) (b : β) :
    (x >>= f) = .ok b ↔ ∃ a, x = .ok a ∧ f a = .ok b := by
  cases x <;> simp [Bind.bind, Except.bind]

theorem from_dict_ok_data (p : RawPayload) (r : DurationsResponse)
    (h : DurationsResponse.from_dict p = .ok r) :
    p.data.mapM decodeEntry = .ok r.data := by
  unfold DurationsResponse.from_dict at h
  rw [exceptBind_ok] at h
  obtain ⟨es, hm, h⟩ := h
  simp only [getKey_bind_ok] at h
  obtain ⟨s1, _, s2, _, s3, _, s4, _, s5, _, h⟩ := h
  simp only [pure, Except.pure, Except.ok.injEq] at h
  subst h
  exact hm

/-- C10: a payload accepted by `from_dict` yields exactly one
`DurationEntry` per `data[]` element, in order, and each successful
element decode is the field-wise coercion of its raw element (with
`project_root_count` as the truthiness-guarded `int()`). -/
theorem c10_from_dict_elementwise (p : RawPayload) (r : DurationsResponse)
    (h : DurationsResponse.from_dict p = .ok r) :
    r.data.length = p.data.length ∧
    (∀ i (hi : i < p.data.length) (hi' : i < r.data.length),
      decodeEntry (p.data.get ⟨i, hi⟩) = .ok (r.data.get ⟨i, hi'⟩)) ∧
    (∀ d e, decodeEntry d = .ok e →
      d.entity = some e.entity ∧ d.type = some e.type ∧ d.time = some e.time ∧
      d.project = some e.project ∧
      (∃ v, d.project_root_count = some v ∧
        e.project_root_count = if v ≠ 0 then pyInt v else 0) ∧
      d.branch = some e.branch ∧ d.language = some e.language ∧
      d.dependencies = some e.dependencies ∧ d.duration = some e.duration) := by
  obtain ⟨hlen, hidx⟩ := mapM_decodeEntry_ok _ _ (from_dict_ok_data p r h)
  exact ⟨hlen, hidx, fun d e he => (decodeEntry_ok_iff d e).mp he⟩

/-- Witness for C10 on a concrete one-entry payload. -/
theorem c10_from_dict_elementwise_witness :
    rExample.data.length = samplePayload.data.length ∧
    decodeEntry (sampleRaw (some 2)) = .ok rEntryExample :=
  ⟨(c10_from_dict_elementwise samplePayload rExample (by rfl)).1,
   (c10_from_dict_elementwise samplePayload rExample (by rfl)).2.1 0
     (by decide) (by decide)⟩

/-- C7 (amended): when the `project_root_count` key is present with
value `v`, the decoded field is `int(v)` if `v` is truthy and `0` if
`v` is falsy; when the key is ABSENT the subscript access raises
`KeyError` (a decode error), so no `DurationEntry` is produced at all —
the code does not default an absent key to `0`. -/
theorem c7_project_root_count_decode (d : RawEntry) (v : ℚ) :
    (d.project_root_count = some v → ∀ e, decodeEntry d = .ok e →
      e.project_root_count = if v ≠ 0 then pyInt v else 0) ∧
    (d.project_root_count = none → ∀ e, decodeEntry d ≠ .ok e) ∧
    (v ≠ 0 → ∃ e, decodeEntry (sampleRaw (some v)) = .ok e ∧
      e.project_root_count = pyInt v) ∧
    (∃ e, decodeEntry (sampleRaw (some 0)) = .ok e ∧
      e.project_root_count = 0) := by
  refine ⟨?_, ?_, ?_, ?_⟩
  · intro hv e he
    obtain ⟨-, -, -, -, ⟨v', hv', hval⟩, -⟩ := (decodeEntry_ok_iff d e).mp he
    rw [hv] at hv'
    cases hv'
    exact hval
  · intro hn e he
    obtain ⟨-, -, -, -, ⟨v', hv', -⟩, -⟩ := (decodeEntry_ok_iff d e).mp he
    rw [hn] at hv'
    cases hv'
  · intro hv
    exact ⟨_, rfl, if_pos hv⟩
  · refine ⟨_, rfl, ?_⟩
    norm_num

/-- Witness for C7 at the concrete truthy value `v = 5`. -/
theorem c7_project_root_count_decode_witness :
    ∃ e, decodeEntry (sampleRaw (some 5)) = .ok e ∧
      e.project_root_count = pyInt 5 :=
  (c7_project_root_count_decode (sampleRaw (some 5)) 5).2.2.1 (by norm_num)

/-- C7 counterexample to the claim as stated: on a `data[]` element
whose `project_root_count` key is absent (all other keys present), the
decode raises `KeyError` instead of defaulting the field to `0`; no
entry is produced. -/
theorem c7_counterexample :
    decodeEntry (sampleRaw none) = .error "project_root_count" ∧
    ∀ e, decodeEntry (sampleRaw none) ≠ .ok e := by
  refine ⟨by rfl, fun e he => ?_⟩
  rw [show decodeEntry (sampleRaw none) = .error "project_root_count" from rfl] at he
  cases he

theorem aggregateDay_ok (outcomes : List FetchOutcome) (t : ℚ)
    (es : List DurationEntry) (h : aggregateDay outcomes = .ok (t, es)) :
    ∃ rs : List DurationsResponse,
      (fetchedBodies outcomes).mapM DurationsResponse.from_dict = .ok rs ∧
      t = (rs.map DurationsResponse.total_duration).sum ∧
      es = (rs.map DurationsResponse.data).flatten := by
  induction outcomes generalizing t es with
  | nil =>
    simp only [aggregateDay, Except.ok.injEq, Prod.mk.injEq] at h
    exact ⟨[], by rfl, by simp [h.1.symm], by simp [h.2.symm]⟩
  | cons o rest ih =>
    cases o with
    | httpError =>
      obtain ⟨rs, h1, h2, h3⟩ := ih _ _ h
      exact ⟨rs, by simpa [fetchedBodies] using h1, h2, h3⟩
    | body p =>
      simp only [aggregateDay] at h
      cases hp : DurationsResponse.from_dict p with
      | error msg => rw [hp] at h; simp [Bind.bind, Except.bind] at h
      | ok r =>
        rw [hp] at h
        simp only [Bind.bind, Except.bind] at h
        cases hrest : aggregateDay rest with
        | error msg => rw [hrest] at h; simp at h
        | ok pr =>
          rw [hrest] at h
          obtain ⟨t1, es1⟩ := pr
          simp only [pure, Except.pure, Except.ok.injEq, Prod.mk.injEq] at h
          obtain ⟨rs, h1, h2, h3⟩ := ih t1 es1 hrest
          refine ⟨r :: rs, ?_, ?_, ?_⟩
          · rw [show fetchedBodies (.body p :: rest) = p :: fetchedBodies rest
              from by simp [fetchedBodies]]
            rw [← List.mapM'_eq_mapM, List.mapM'_cons, hp, List.mapM'_eq_mapM, h1]
            rfl
          · rw [← h.1, h2]; simp
          · rw [← h.2, h3]; simp

theorem processDay_ok (gen : Prompt → String) (label : String) (date : Int)
    (outcomes : List FetchOutcome) (o : DayOutcome)
    (h : processDay gen label date outcomes = .ok o) :
    ∃ t es, aggregateDay outcomes = .ok (t, es) ∧
      ((es = [] ∧ o = ⟨[], []⟩) ∨
       (es ≠ [] ∧
        o = ⟨[buildPrompt label es],
             [⟨date, format_duration t, gen (buildPrompt label es)⟩]⟩)) := by
  unfold processDay at h
  rw [exceptBind_ok] at h
  obtain ⟨⟨t, es⟩, ha, h⟩ := h
  replace h : (if es.isEmpty = true then (pure ⟨[], []⟩ : Except String DayOutcome)
      else pure ⟨[buildPrompt label es],
        [⟨date, format_duration t, gen (buildPrompt label es)⟩]⟩) = .ok o := h
  refine ⟨t, es, ha, ?_⟩
  by_cases he : es.isEmpty
  · rw [if_pos he] at h
    left
    simp only [pure, Except.pure, Except.ok.injEq] at h
    exact ⟨List.isEmpty_iff.mp he, h.symm⟩
  · rw [if_neg he] at h
    right
    simp only [pure, Except.pure, Except.ok.injEq] at h
    exact ⟨fun hn => he (by simp [hn]), h.symm⟩

/-- C4: the total written in a date's report row is the accumulated sum
of the successfully fetched responses' `total_duration`s, and each
`total_duration` is the sum of its entries' durations (failed fetches
contribute nothing). -/
theorem c4_row_total_is_sum (gen : Prompt → String) (label : String)
    (date : Int) (outcomes : List FetchOutcome) (o : DayOutcome)
    (h : processDay gen label date outcomes = .ok o) :
    ∃ t es rs,
      aggregateDay outcomes = .ok (t, es) ∧
      (fetchedBodies outcomes).mapM DurationsResponse.from_dict = .ok rs ∧
      t = (rs.map DurationsResponse.total_duration).sum ∧
      (∀ r : DurationsResponse,
        r.total_duration = (r.data.map fun e => e.duration).sum) ∧
      ∀ row ∈ o.rows, row.horas = format_duration t := by
  obtain ⟨t, es, ha, hcase⟩ := processDay_ok gen label date outcomes o h
  obtain ⟨rs, h1, h2, h3⟩ := aggregateDay_ok _ _ _ ha
  refine ⟨t, es, rs, ha, h1, h2, fun r => rfl, ?_⟩
  rcases hcase with ⟨-, rfl⟩ | ⟨-, rfl⟩
  · intro row hrow
    simp at hrow
  · intro row hrow
    simp only [List.mem_singleton] at hrow
    subst hrow
    rfl

/-- Witness for C4 on a one-project day with a one-entry response. -/
theorem c4_row_total_is_sum_witness :
    ∃ t es rs,
      aggregateDay [.body samplePayload] = .ok (t, es) ∧
      (fetchedBodies [.body samplePayload]).mapM DurationsResponse.from_dict
        = .ok rs ∧
      t = (rs.map DurationsResponse.total_duration).sum ∧
      (∀ r : DurationsResponse,
        r.total_duration = (r.data.map fun e => e.duration).sum) ∧
      ∀ row ∈ (DayOutcome.mk [buildPrompt "sipe-web" [rEntryExample]]
          [⟨0, format_duration ((90 : ℚ) + 0 + 0), "desc"⟩]).rows,
        row.horas = format_duration ((90 : ℚ) + 0 + 0) := by
  refine ⟨(90 : ℚ) + 0 + 0, [rEntryExample], [rExample], by rfl, by rfl, ?_, fun r => rfl, ?_⟩
  · simp [rExample, DurationsResponse.total_duration, rEntryExample]
  · have h := c4_row_total_is_sum (fun _ => "desc") "sipe-web" 0 [.body samplePayload]
      (DayOutcome.mk [buildPrompt "sipe-web" [rEntryExample]]
        [⟨0, format_duration ((90 : ℚ) + 0 + 0), "desc"⟩]) (by rfl)
    intro row hrow
    simp only [List.mem_singleton] at hrow
    subst hrow
    rfl

/-- C9 (amended): decoding copies the payload's duration values without
validation, so every decoded entry's duration is non-negative WHENEVER
every duration in the payload is; under that assumption the response
total and the aggregated day total are non-negative as well.  (The
claim's unconditional form is false: a payload carrying a negative
duration is accepted unchanged, see the counterexample.) -/
theorem c9_decode_preserves_nonneg (p : RawPayload) (r : DurationsResponse)
    (h : DurationsResponse.from_dict p = .ok r)
    (hp : ∀ d ∈ p.data, ∀ v, d.duration = some v → 0 ≤ v) :
    (∀ e ∈ r.data, 0 ≤ e.duration) ∧
    0 ≤ r.total_duration ∧
    (∀ outcomes t es, aggregateDay outcomes = .ok (t, es) →
      (∀ e ∈ es, 0 ≤ e.duration) → 0 ≤ t) := by
  have hdata : ∀ e ∈ r.data, 0 ≤ e.duration := by
    intro e he
    obtain ⟨n, hn⟩ := List.mem_iff_get.mp he
    obtain ⟨hlen, hidx⟩ := mapM_decodeEntry_ok _ _ (from_dict_ok_data p r h)
    have hd := hidx n.1 (by omega) n.2
    obtain ⟨-, -, -, -, -, -, -, -, hdur⟩ := (decodeEntry_ok_iff _ _).mp hd
    rw [hn] at hdur
    exact hp _ (List.get_mem _ _ _) e.duration hdur
  refine ⟨hdata, ?_, ?_⟩
  · apply List.sum_nonneg
    intro x hx
    obtain ⟨e, he, rfl⟩ := List.mem_map.mp hx
    exact hdata e he
  · intro outcomes t es hagg hes
    obtain ⟨rs, -, h2, h3⟩ := aggregateDay_ok _ _ _ hagg
    rw [h2]
    apply List.sum_nonneg
    intro x hx
    obtain ⟨rr, hrr, rfl⟩ := List.mem_map.mp hx
    show 0 ≤ (rr.data.map fun e => e.duration).sum
    apply List.sum_nonneg
    intro y hy
    obtain ⟨e, he, rfl⟩ := List.mem_map.mp hy
    apply hes
    rw [h3]
    exact List.mem_flatten.mpr ⟨rr.data, List.mem_map.mpr ⟨rr, hrr, rfl⟩, he⟩

/-- Witness for C9 on the concrete non-negative payload. -/
theorem c9_decode_preserves_nonneg_witness : 0 ≤ rExample.total_duration :=
  (c9_decode_preserves_nonneg samplePayload rExample (by rfl)
    (by
      intro d hd v hv
      simp only [samplePayload, List.mem_singleton] at hd
      subst hd
      simp only [sampleRaw, Option.some.injEq] at hv
      rw [← hv]
      norm_num)).2.1

/-- C9 counterexample to the claim as stated: decoding a payload whose
entry has duration `-1` succeeds and produces a `DurationEntry` with a
NEGATIVE duration — `from_dict` performs no validation. -/
theorem c9_counterexample :
    DurationsResponse.from_dict negPayload =
      .ok ⟨[negEntry], 100, 200, "UTC", ["main"], ["main"], none⟩ ∧
    ∃ e ∈ (DurationsResponse.mk [negEntry] 100 200 "UTC" ["main"] ["main"] none).data,
      e.duration < 0 := by
  refine ⟨by rfl, negEntry, List.mem_singleton.mpr rfl, ?_⟩
  show (-1 : ℚ) < 0
  norm_num

/-- C2: within a processed date, the text-generation capability is
invoked exactly once when the combined entry list is non-empty and zero
times when it is empty; the `"src/"`/60-second filter plays no role in
whether the call happens — when it filters everything out, the one call
is still made and its prompt embeds an empty file list (shown both in
general and on a concrete all-filtered day). -/
theorem c2_generation_once_per_nonempty_day (gen : Prompt → String)
    (label : String) (date : Int) (outcomes : List FetchOutcome)
    (o : DayOutcome) (t : ℚ) (es : List DurationEntry)
    (h : processDay gen label date outcomes = .ok o)
    (ha : aggregateDay outcomes = .ok (t, es)) :
    o.calls.length = (if es = [] then 0 else 1) ∧
    (es ≠ [] → entities_and_duration es = [] → o.calls = [⟨label, ""⟩]) ∧
    (processDay (fun _ => "desc") label date [noSrcOutcome]).map
      (fun d => (d.calls, d.rows.length)) = .ok ([⟨label, ""⟩], 1) := by
  obtain ⟨t', es', ha', hcase⟩ := processDay_ok gen label date outcomes o h
  rw [ha'] at ha
  injection ha with ha
  obtain ⟨rfl, rfl⟩ := Prod.mk.injEq .. ▸ Prod.ext_iff.mp ha
  refine ⟨?_, ?_, by rfl⟩
  · rcases hcase with ⟨he, rfl⟩ | ⟨he, rfl⟩
    · simp [he]
    · simp [he]
  · intro hne hfilter
    rcases hcase with ⟨he, rfl⟩ | ⟨he, rfl⟩
    · exact absurd he hne
    · simp only [buildPrompt, buildFileList, hfilter, List.map_nil]
      rfl

/-- Witness for C2 on a day whose only entry survives aggregation but
not the prompt filter: one call, with an empty embedded file list. -/
theorem c2_generation_once_per_nonempty_day_witness :
    (DayOutcome.mk [⟨"sipe", ""⟩]
        [⟨0, format_duration ((120 : ℚ) + 0 + 0), "desc"⟩]).calls.length =
      (if [docsEntry] = ([] : List DurationEntry) then 0 else 1) ∧
    ([docsEntry] ≠ ([] : List DurationEntry) →
      entities_and_duration [docsEntry] = [] →
      (DayOutcome.mk [⟨"sipe", ""⟩]
        [⟨0, format_duration ((120 : ℚ) + 0 + 0), "desc"⟩]).calls = [⟨"sipe", ""⟩]) ∧
    (processDay (fun _ => "desc") "sipe" 0 [noSrcOutcome]).map
      (fun d => (d.calls, d.rows.length)) = .ok ([⟨"sipe", ""⟩], 1) :=
  c2_generation_once_per_nonempty_day (fun _ => "desc") "sipe" 0 [noSrcOutcome]
    (DayOutcome.mk [⟨"sipe", ""⟩]
      [⟨0, format_duration ((120 : ℚ) + 0 + 0), "desc"⟩])
    ((120 : ℚ) + 0 + 0) [docsEntry] (by rfl) (by rfl)

/-- C6: a malformed `data[]` element (required key missing) fails the
decode, and that failure is not the HTTP-layer error the per-project
handler catches: it escapes the per-date fetch loop (aborting the day
and hence the whole run), whereas HTTP errors are swallowed and the
loop completes. -/
theorem c6_decode_error_aborts (good : List FetchOutcome) (p : RawPayload)
    (rest : List FetchOutcome) (msg : String) (tg : ℚ)
    (eg : List DurationEntry)
    (hp : DurationsResponse.from_dict p = .error msg)
    (hgood : aggregateDay good = .ok (tg, eg)) :
    aggregateDay (good ++ .body p :: rest) = .error msg ∧
    (∀ outs : List FetchOutcome, (∀ o ∈ outs, o = .httpError) →
      aggregateDay outs = .ok (0, [])) ∧
    (∀ (gen : Prompt → String) (label : String)
        (oracle : Int → List FetchOutcome) (start stop : Int),
      start ≤ stop → aggregateDay (oracle start) = .error msg →
      runReport gen label oracle start stop = .error msg) := by
  refine ⟨?_, ?_, ?_⟩
  · induction good generalizing tg eg with
    | nil =>
      simp only [List.nil_append, aggregateDay, hp]
      rfl
    | cons o g ih =>
      cases o with
      | httpError => exact ih tg eg hgood
      | body q =>
        simp only [List.cons_append, aggregateDay] at hgood ⊢
        cases hq : DurationsResponse.from_dict q with
        | error m =>
          simp [hq, Bind.bind, Except.bind] at hgood
        | ok r =>
          simp only [Bind.bind, Except.bind] at hgood ⊢
          cases hg : aggregateDay g with
          | error m =>
            simp [hq, hg, Bind.bind, Except.bind] at hgood
          | ok pr =>
            obtain ⟨t1, es1⟩ := pr
            rw [List.append_eq, ih t1 es1 hg]
  · intro outs houts
    induction outs with
    | nil => rfl
    | cons o os ih =>
      have ho := houts o (List.mem_cons_self o os)
      subst ho
      exact ih fun x hx => houts x (List.mem_cons_of_mem _ hx)
  · intro gen label oracle start stop hle herr
    unfold runReport
    rw [if_pos hle]
    unfold processDay
    rw [herr]
    rfl

/-- Witness for C6: after one caught HTTP failure, a payload missing the
`duration` key aborts the day's aggregation with the decode error. -/
theorem c6_decode_error_aborts_witness :
    aggregateDay ([.httpError] ++ .body badPayload :: []) = .error "duration" :=
  (c6_decode_error_aborts [.httpError] badPayload [] "duration" 0 []
    (by rfl) (by rfl)).1

/-- C8: when either required environment secret is missing, the run
logs and returns: no exception escapes (the result is `.ok`) and no
output table is produced (`none` — `trabalho.csv` is never opened). -/
theorem c8_missing_secret_no_output (env : String → Option String)
    (gen : Prompt → String) (label : String)
    (oracle : Int → List FetchOutcome) (start stop : Int)
    (h : env "OPENAI_API_KEY" = none ∨ env "WAKATIME_TOKEN" = none) :
    mainModel env gen label oracle start stop = .ok none ∧
    is_environment_valid env = false := by
  have hv : is_environment_valid env = false := by
    unfold is_environment_valid
    rcases h with h | h <;> rw [h] <;> simp [envTruthy]
  refine ⟨?_, hv⟩
  unfold mainModel
  rw [hv]
  rfl

/-- Witness for C8 with an empty environment. -/
theorem c8_missing_secret_no_output_witness :
    mainModel (fun _ => none) (fun _ => "desc") "sipe" (fun _ => []) 0 0
        = .ok none ∧
    is_environment_valid (fun _ => none) = false :=
  c8_missing_secret_no_output (fun _ => none) (fun _ => "desc") "sipe"
    (fun _ => []) 0 0 (Or.inl rfl)

theorem visitedDates_step (start stop : Int) (h : start ≤ stop) :
    visitedDates start stop = start :: visitedDates (start + 1) stop := by
  rw [visitedDates]
  rw [if_pos h]

theorem visitedDates_stop (start stop : Int) (h : ¬ start ≤ stop) :
    visitedDates start stop = [] := by
  rw [visitedDates]
  rw [if_neg h]

theorem runReport_step (gen : Prompt → String) (label : String)
    (oracle : Int → List FetchOutcome) (start stop : Int) (h : start ≤ stop) :
    runReport gen label oracle start stop =
      (processDay gen label start (oracle start) >>= fun d =>
        runReport gen label oracle (start + 1) stop >>= fun rest =>
          pure ⟨d.calls ++ rest.calls, d.rows ++ rest.rows⟩) := by
  rw [runReport]
  rw [if_pos h]

theorem runReport_stop (gen : Prompt → String) (label : String)
    (oracle : Int → List FetchOutcome) (start stop : Int) (h : ¬ start ≤ stop) :
    runReport gen label oracle start stop = .ok ⟨[], []⟩ := by
  rw [runReport]
  rw [if_neg h]

theorem visitedDates_count (stop d : Int) :
    ∀ (n : Nat) (start : Int), (stop + 1 - start).toNat = n →
      (visitedDates start stop).count d =
        if start ≤ d ∧ d ≤ stop then 1 else 0 := by
  intro n
  induction n with
  | zero =>
    intro s hs
    rw [visitedDates_stop s stop (by omega),
      if_neg (by omega : ¬ (s ≤ d ∧ d ≤ stop))]
    rfl
  | succ n ih =>
    intro s hs
    have hse : s ≤ stop := by omega
    rw [visitedDates_step s stop hse, List.count_cons, ih (s + 1) (by omega)]
    simp only [beq_iff_eq]
    split_ifs <;> omega

theorem mem_visitedDates (stop d : Int) :
    ∀ (n : Nat) (start : Int), (stop + 1 - start).toNat = n →
      (d ∈ visitedDates start stop ↔ start ≤ d ∧ d ≤ stop) := by
  intro n
  induction n with
  | zero =>
    intro s hs
    rw [visitedDates_stop s stop (by omega)]
    simp
    omega
  | succ n ih =>
    intro s hs
    have hse : s ≤ stop := by omega
    rw [visitedDates_step s stop hse, List.mem_cons, ih (s + 1) (by omega)]
    omega

theorem visitedDates_pairwise (stop : Int) :
    ∀ (n : Nat) (start : Int), (stop + 1 - start).toNat = n →
      (visitedDates start stop).Pairwise (· < ·) := by
  intro n
  induction n with
  | zero =>
    intro s hs
    rw [visitedDates_stop s stop (by omega)]
    exact List.Pairwise.nil
  | succ n ih =>
    intro s hs
    have hse : s ≤ stop := by omega
    rw [visitedDates_step s stop hse]
    refine List.Pairwise.cons ?_ (ih (s + 1) (by omega))
    intro b hb
    rw [mem_visitedDates stop b (stop + 1 - (s + 1)).toNat (s + 1) rfl] at hb
    omega

theorem runReport_rows (gen : Prompt → String) (label : String)
    (oracle : Int → List FetchOutcome) (stop : Int) :
    ∀ (n : Nat) (start : Int), (stop + 1 - start).toNat = n →
    ∀ o, runReport gen label oracle start stop = .ok o →
      (o.rows.map Row.date).Sublist (visitedDates start stop) ∧
      ∀ d, (o.rows.map Row.date).count d =
        if start ≤ d ∧ d ≤ stop ∧ dayHasEntries (oracle d) = true
        then 1 else 0 := by
  intro n
  induction n with
  | zero =>
    intro s hs o ho
    rw [runReport_stop gen label oracle s stop (by omega)] at ho
    injection ho with ho
    subst ho
    refine ⟨by simp [visitedDates_stop s stop (by omega)], fun d => ?_⟩
    rw [if_neg fun h => by omega]
    rfl
  | succ n ih =>
    intro s hs o ho
    have hse : s ≤ stop := by omega
    rw [runReport_step gen label oracle s stop hse, exceptBind_ok] at ho
    obtain ⟨day, hday, ho⟩ := ho
    rw [exceptBind_ok] at ho
    obtain ⟨restO, hrest, ho⟩ := ho
    simp only [pure, Except.pure, Except.ok.injEq] at ho
    subst ho
    obtain ⟨t, es, ha, hcase⟩ := processDay_ok gen label s (oracle s) day hday
    obtain ⟨ihsub, ihcount⟩ := ih (s + 1) (by omega) restO hrest
    constructor
    · rw [visitedDates_step s stop hse]
      rcases hcase with ⟨-, rfl⟩ | ⟨-, rfl⟩
      · simpa using ihsub.cons s
      · simpa using ihsub.cons₂ s
    · intro d
      rw [List.map_append, List.count_append, ihcount d]
      rcases hcase with ⟨he, rfl⟩ | ⟨he, rfl⟩
      · simp only [List.map_nil, List.count_nil, Nat.zero_add]
        by_cases hd : d = s
        · subst hd
          have hday0 : dayHasEntries (oracle d) = false := by
            simp [dayHasEntries, ha, he]
          rw [if_neg fun h => by omega,
            if_neg fun h => by rw [hday0] at h; exact absurd h.2.2 (by simp)]
        · have h1 : ¬ (s + 1 ≤ d ∧ d ≤ stop ∧ dayHasEntries (oracle d) = true) →
              ¬ (s ≤ d ∧ d ≤ stop ∧ dayHasEntries (oracle d) = true) :=
            fun hn hc => hn ⟨by omega, hc.2⟩
          by_cases hc : s + 1 ≤ d ∧ d ≤ stop ∧ dayHasEntries (oracle d) = true
          · rw [if_pos hc, if_pos ⟨by omega, hc.2⟩]
          · rw [if_neg hc, if_neg (h1 hc)]
      · simp only [List.map_cons, List.map_nil, List.count_cons, List.count_nil,
          Nat.zero_add, beq_iff_eq]
        by_cases hd : d = s
        · subst hd
          have hday1 : dayHasEntries (oracle d) = true := by
            simp [dayHasEntries, ha]
            exact he
          rw [if_pos rfl, if_neg fun h => by omega,
            if_pos ⟨le_refl d, hse, hday1⟩]
        · rw [if_neg fun h => hd h.symm, Nat.zero_add]
          by_cases hc : s + 1 ≤ d ∧ d ≤ stop ∧ dayHasEntries (oracle d) = true
          · rw [if_pos hc, if_pos ⟨by omega, hc.2⟩]
          · rw [if_neg hc, if_neg fun hc2 => hc ⟨by omega, hc2.2⟩]

/-- C5: the date loop visits every date of the inclusive range exactly
once, in strictly ascending order; the run emits exactly one row per
visited date whose aggregation collected at least one entry (zero rows
when it collected none — in particular when every fetch failed), so the
rows' dates are strictly ascending; the written table is the header row
followed by the data rows. -/
theorem c5_driver_dates_and_rows (gen : Prompt → String) (label : String)
    (oracle : Int → List FetchOutcome) (start stop : Int) (o : DayOutcome)
    (h : runReport gen label oracle start stop = .ok o) :
    (∀ d, (visitedDates start stop).count d =
      if start ≤ d ∧ d ≤ stop then 1 else 0) ∧
    (visitedDates start stop).Pairwise (· < ·) ∧
    (o.rows.map Row.date).Sublist (visitedDates start stop) ∧
    (∀ d, (o.rows.map Row.date).count d =
      if start ≤ d ∧ d ≤ stop ∧ dayHasEntries (oracle d) = true
      then 1 else 0) ∧
    (o.rows.map Row.date).Pairwise (· < ·) ∧
    csvTable o.rows = csvHeader ::
      (o.rows.map fun r => [toString r.date, r.horas, r.descricao]) := by
  obtain ⟨hsub, hcount⟩ := runReport_rows gen label oracle stop _ start rfl o h
  exact ⟨fun d => visitedDates_count stop d _ start rfl,
    visitedDates_pairwise stop _ start rfl, hsub, hcount,
    List.Pairwise.sublist hsub (visitedDates_pairwise stop _ start rfl), rfl⟩

/-- Witness for C5 on the two-day range `[0, 1]` with an oracle whose
fetches all fail (no rows). -/
theorem c5_driver_dates_and_rows_witness :
    (visitedDates 0 1).Pairwise (· < ·) ∧
    ((DayOutcome.mk [] []).rows.map Row.date).Sublist (visitedDates 0 1) := by
  have hrun : runReport (fun _ => "desc") "sipe" (fun _ => [.httpError]) 0 1
      = .ok ⟨[], []⟩ := by
    rw [runReport_step _ _ _ 0 1 (by norm_num),
      show ((0 : Int) + 1) = 1 from by norm_num,
      runReport_step _ _ _ 1 1 (by norm_num),
      show ((1 : Int) + 1) = 2 from by norm_num,
      runReport_stop _ _ _ 2 1 (by norm_num)]
    rfl
  exact ⟨(c5_driver_dates_and_rows (fun _ => "desc") "sipe"
      (fun _ => [.httpError]) 0 1 ⟨[], []⟩ hrun).2.1,
    (c5_driver_dates_and_rows (fun _ => "desc") "sipe"
      (fun _ => [.httpError]) 0 1 ⟨[], []⟩ hrun).2.2.1⟩
